import Mathlib

/-!
Verification development for the brew-thermal-tool physics core.

The source is TypeScript: `src/lib/physics.ts` (pure thermal formulas) and
`src/components/SimpleForm.tsx` (derived quantities and the Euler simulation
loop).  JavaScript numbers are modelled by the type `JsN` below: a finite
real, positive infinity, negative infinity, or NaN.  Finite values are
idealised as real numbers (IEEE rounding and negative zero are not modelled;
none of the verified properties depends on rounding, and a computed negative
zero never flows into a branch where its sign matters in this code).
User-supplied inputs are taken as finite reals; every computed value that can
become infinite or NaN in JavaScript is a `JsN`.
-/

noncomputable section
open scoped Classical

/-- A JavaScript number: a finite real, +Infinity, -Infinity, or NaN. -/
inductive JsN where
  | fin (x : ℝ)
  | inf
  | ninf
  | nan

namespace JsN

/-- JavaScript addition on `JsN`. -/
def jsAdd : JsN → JsN → JsN
  | fin x, fin y => fin (x + y)
  | fin _, inf => inf
  | fin _, ninf => ninf
  | fin _, nan => nan
  | inf, fin _ => inf
  | inf, inf => inf
  | inf, ninf => nan
  | inf, nan => nan
  | ninf, fin _ => ninf
  | ninf, inf => nan
  | ninf, ninf => ninf
  | ninf, nan => nan
  | nan, _ => nan

/-- JavaScript subtraction on `JsN`. -/
def jsSub : JsN → JsN → JsN
  | fin x, fin y => fin (x - y)
  | fin _, inf => ninf
  | fin _, ninf => inf
  | fin _, nan => nan
  | inf, fin _ => inf
  | inf, inf => nan
  | inf, ninf => inf
  | inf, nan => nan
  | ninf, fin _ => ninf
  | ninf, inf => ninf
  | ninf, ninf => nan
  | ninf, nan => nan
  | nan, _ => nan

/-- JavaScript multiplication on `JsN`. -/
def jsMul : JsN → JsN → JsN
  | fin x, fin y => fin (x * y)
  | fin x, inf => if 0 < x then inf else if x < 0 then ninf else nan
  | fin x, ninf => if 0 < x then ninf else if x < 0 then inf else nan
  | fin _, nan => nan
  | inf, fin y => if 0 < y then inf else if y < 0 then ninf else nan
  | inf, inf => inf
  | inf, ninf => ninf
  | inf, nan => nan
  | ninf, fin y => if 0 < y then ninf else if y < 0 then inf else nan
  | ninf, inf => ninf
  | ninf, ninf => inf
  | ninf, nan => nan
  | nan, _ => nan

/-- JavaScript division on `JsN` (division by zero yields a signed infinity,
zero over zero yields NaN, a finite value over an infinity yields zero). -/
def jsDiv : JsN → JsN → JsN
  | fin x, fin y =>
      if y = 0 then (if 0 < x then inf else if x < 0 then ninf else nan)
      else fin (x / y)
  | fin _, inf => fin 0
  | fin _, ninf => fin 0
  | fin _, nan => nan
  | inf, fin y => if 0 ≤ y then inf else ninf
  | inf, inf => nan
  | inf, ninf => nan
  | inf, nan => nan
  | ninf, fin y => if 0 ≤ y then ninf else inf
  | ninf, inf => nan
  | ninf, ninf => nan
  | ninf, nan => nan
  | nan, _ => nan

/-- The JavaScript comparison a less-or-equal b (false whenever NaN is involved). -/
def jle : JsN → JsN → Prop
  | fin x, fin y => x ≤ y
  | fin _, inf => True
  | fin _, ninf => False
  | fin _, nan => False
  | inf, fin _ => False
  | inf, inf => True
  | inf, ninf => False
  | inf, nan => False
  | ninf, fin _ => True
  | ninf, inf => True
  | ninf, ninf => True
  | ninf, nan => False
  | nan, _ => False

/-- JavaScript Math.max on two numbers (NaN absorbing). -/
def jsMax : JsN → JsN → JsN
  | fin x, fin y => fin (max x y)
  | fin _, inf => inf
  | fin x, ninf => fin x
  | fin _, nan => nan
  | inf, nan => nan
  | inf, _ => inf
  | ninf, nan => nan
  | ninf, b => b
  | nan, _ => nan

/-- JavaScript Math.log on a number: natural log for positive finite input,
-Infinity at zero, NaN for negative input, Infinity at Infinity. -/
def jsLog : JsN → JsN
  | fin x => if 0 < x then fin (Real.log x) else if x = 0 then ninf else nan
  | inf => inf
  | ninf => nan
  | nan => nan

/-- JavaScript Math.pow with a fixed positive non-integer real exponent
(the source only uses exponents 0.8 and 0.4): real rpow on a nonnegative
finite base, NaN on a negative base, Infinity on an infinite base. -/
def jpow : JsN → ℝ → JsN
  | fin x, e => if 0 ≤ x then fin (Real.rpow x e) else nan
  | inf, _ => inf
  | ninf, _ => inf
  | nan, _ => nan

/-- JavaScript truthiness of a number: everything except 0 and NaN. -/
def jsTruthy : JsN → Prop
  | fin x => x ≠ 0
  | inf => True
  | ninf => True
  | nan => False

end JsN

/-- The JavaScript short-circuit a-or-else-d on `JsN` (used by the source as
a fallback for zero or NaN values). -/
def jsOr (a d : JsN) : JsN := if JsN.jsTruthy a then a else d

/-- The JavaScript short-circuit a-or-else-d on plain finite numbers. -/
def jsOrR (x d : ℝ) : ℝ := if x = 0 then d else x

/-- Fluid property record, from the constants module (`FluidSpec`):
density, specific heat, thermal conductivity, dynamic viscosity.
Data-model invariant per the spec: all fields positive. -/
structure FluidSpec where
  rho : ℝ
  cp : ℝ
  k : ℝ
  mu : ℝ

/-- Pipe material record (`MaterialSpec`): thermal conductivity. -/
structure MaterialSpec where
  k : ℝ

/-- Modelled from the spec: the record `FLUIDS.water` lives in
`src/utils/constants.ts`, which is not among the provided sources.  The spec
pins its density via massFromLiters(200) = 198.6 kg (so rho = 993) and its
specific heat cp = 4186.  The spec does not give numeric conductivity or
viscosity for water; we use 0.6 and 0.001, the exact fallback values the
source substitutes (`fluid.k || 0.6`, `fluid.mu || 0.001`) whenever the
record omits them.  No verified property depends on the k and mu values. -/
def water : FluidSpec := ⟨993, 4186, 0.6, 0.001⟩

/-- Result record of `powerToHeatVolume` (`PowerResult` in the source). -/
structure PowerResult where
  massKg : ℝ
  energyJ : ℝ
  powerW : JsN

/-- src/lib/physics.ts massFromLiters: mass in kg of a volume in liters. -/
def massFromLiters (liters : ℝ) (fluid : FluidSpec) : ℝ :=
  liters / 1000 * fluid.rho

/-- src/lib/physics.ts powerToHeatVolume: energy and power needed to heat a
volume by deltaT_C within dt_seconds.  The division by the duration is a
JavaScript division, unguarded in the source. -/
def powerToHeatVolume (liters deltaT_C dt_seconds : ℝ) (fluid : FluidSpec) :
    PowerResult :=
  let m := massFromLiters liters fluid
  let Q := m * fluid.cp * deltaT_C
  ⟨m, Q, JsN.jsDiv (.fin Q) (.fin dt_seconds)⟩

/-- src/lib/physics.ts pipeConductionResistance: radial conduction resistance
of a cylindrical wall, Infinity when the radii are inverted or equal. -/
def pipeConductionResistance (innerRadius outerRadius length : ℝ)
    (material : MaterialSpec) : JsN :=
  if outerRadius ≤ innerRadius then .inf
  else JsN.jsDiv (JsN.jsLog (JsN.jsDiv (.fin outerRadius) (.fin innerRadius)))
    (.fin (2 * Real.pi * material.k * length))

/-- src/lib/physics.ts reynolds. -/
def reynolds (rho velocity D mu : ℝ) : JsN :=
  JsN.jsDiv (.fin (rho * velocity * D)) (.fin mu)

/-- src/lib/physics.ts prandtl. -/
def prandtl (cp mu k : ℝ) : JsN :=
  JsN.jsDiv (.fin (cp * mu)) (.fin k)

/-- src/lib/physics.ts dittusBoelterNu: Dittus-Boelter correlation, guarded
to 0 for nonpositive Reynolds or Prandtl numbers. -/
def dittusBoelterNu (Re Pr : JsN) : JsN :=
  if JsN.jle Re (.fin 0) ∨ JsN.jle Pr (.fin 0) then .fin 0
  else JsN.jsMul (JsN.jsMul (.fin 0.023) (JsN.jpow Re 0.8)) (JsN.jpow Pr 0.4)

/-- Result record of `hInside` (an anonymous object in the source). -/
structure HInsideResult where
  Re : JsN
  Pr : JsN
  Nu : JsN
  h : JsN

/-- src/lib/physics.ts hInside: internal convective coefficient via
Dittus-Boelter.  The source reads `fluid.k || 0.6` at both uses. -/
def hInside (fluid : FluidSpec) (velocity D mu : ℝ) : HInsideResult :=
  let Re := reynolds fluid.rho velocity D mu
  let Pr := prandtl fluid.cp mu (jsOrR fluid.k 0.6)
  let Nu := dittusBoelterNu Re Pr
  ⟨Re, Pr, Nu, JsN.jsDiv (JsN.jsMul Nu (.fin (jsOrR fluid.k 0.6))) (.fin D)⟩

/-- src/lib/physics.ts convectiveResistance: 1/(h*A) with A = 2 pi r L,
Infinity when the coefficient or the area is nonpositive. -/
def convectiveResistance (h : JsN) (radius length : ℝ) : JsN :=
  if JsN.jle h (.fin 0) ∨ 2 * Real.pi * radius * length ≤ 0 then .inf
  else JsN.jsDiv (.fin 1) (JsN.jsMul h (.fin (2 * Real.pi * radius * length)))

/-- Result record of `pipeHeatTransfer` (an anonymous object in the source). -/
structure PipeHeatResult where
  insideRe : JsN
  insidePr : JsN
  insideNu : JsN
  hInside : JsN
  hOutside : ℝ
  RconvIn : JsN
  Rcond : JsN
  RconvOut : JsN
  Rtotal : JsN
  QlossW : JsN

/-- src/lib/physics.ts pipeHeatTransfer: series resistance network of a pipe
segment and the signed heat loss through it.  The internal coefficient
actually used is `inside.h || 0.0001`; the external one defaults to 10 when
no estimate is supplied (`hOutsideEstimate !== null ? hOutsideEstimate : 10`).
The fluid temperature is a computed JavaScript number (the simulation feeds
the evolving state back in), hence a `JsN`. -/
def pipeHeatTransfer (fluidTempC : JsN)
    (ambientTempC innerRadius outerRadius length velocity : ℝ)
    (material : MaterialSpec) (fluid : FluidSpec) (mu : ℝ)
    (hOutsideEstimate : Option ℝ) : PipeHeatResult :=
  let D := innerRadius * 2
  let inside := hInside fluid velocity D mu
  let hIn := jsOr inside.h (.fin 0.0001)
  let RconvIn := convectiveResistance hIn innerRadius length
  let Rcond := pipeConductionResistance innerRadius outerRadius length material
  let hOut := hOutsideEstimate.getD 10
  let RconvOut := convectiveResistance (.fin hOut) outerRadius length
  let Rtotal := JsN.jsAdd (JsN.jsAdd RconvIn Rcond) RconvOut
  let QlossW := JsN.jsDiv (JsN.jsSub fluidTempC (.fin ambientTempC)) Rtotal
  ⟨jsOr inside.Re (.fin 0), jsOr inside.Pr (.fin 0), jsOr inside.Nu (.fin 0),
    hIn, hOut, RconvIn, Rcond, RconvOut, Rtotal, QlossW⟩

/-- The default viscosity argument of pipeHeatTransfer: `fluid.mu || 0.001`. -/
def muDefault (fluid : FluidSpec) : ℝ := jsOrR fluid.mu 0.001

/-- The input state of the SimpleForm component (src/components/SimpleForm.tsx):
the user-editable numeric fields, plus the material record the component
resolves from the external MATERIALS table via its key. -/
structure SimConfig where
  liters : ℝ
  initialTemp : ℝ
  targetTemp : ℝ
  timeMin : ℝ
  flowLpm : ℝ
  innerDiameter : ℝ
  thickness : ℝ
  pipeLength : ℝ
  ambientTemp : ℝ
  mat : MaterialSpec

namespace SimConfig

/-- SimpleForm: dtSeconds = timeMin * 60. -/
def dtSeconds (cfg : SimConfig) : ℝ := cfg.timeMin * 60

/-- SimpleForm: deltaT = targetTemp - initialTemp. -/
def deltaT (cfg : SimConfig) : ℝ := cfg.targetTemp - cfg.initialTemp

/-- SimpleForm: flow_m3s = (flowLpm / 60) / 1000. -/
def flow_m3s (cfg : SimConfig) : ℝ := cfg.flowLpm / 60 / 1000

/-- SimpleForm: innerRadius = innerDiameter / 2. -/
def innerRadius (cfg : SimConfig) : ℝ := cfg.innerDiameter / 2

/-- SimpleForm: outerRadius = innerRadius + thickness. -/
def outerRadius (cfg : SimConfig) : ℝ := cfg.innerRadius + cfg.thickness

/-- SimpleForm velocity memo: flow over cross-section, 0 when the area is
nonpositive. -/
def velocity (cfg : SimConfig) : ℝ :=
  if Real.pi * cfg.innerRadius * cfg.innerRadius ≤ 0 then 0
  else cfg.flow_m3s / (Real.pi * cfg.innerRadius * cfg.innerRadius)

/-- SimpleForm powerIdeal memo. -/
def powerIdeal (cfg : SimConfig) : PowerResult :=
  powerToHeatVolume cfg.liters cfg.deltaT cfg.dtSeconds water

/-- SimpleForm pipeTransfer memo: losses evaluated at the target temperature;
the omitted trailing arguments take their defaults. -/
def pipeTransfer (cfg : SimConfig) : PipeHeatResult :=
  pipeHeatTransfer (.fin cfg.targetTemp) cfg.ambientTemp cfg.innerRadius
    cfg.outerRadius cfg.pipeLength cfg.velocity cfg.mat water
    (muDefault water) none

/-- SimpleForm requiredPowerW memo:
powerIdeal.powerW + Math.max(0, pipeTransfer.QlossW || 0). -/
def requiredPowerW (cfg : SimConfig) : JsN :=
  JsN.jsAdd (cfg.powerIdeal).powerW
    (JsN.jsMax (.fin 0) (jsOr (cfg.pipeTransfer).QlossW (.fin 0)))

/-- runSimulation local: C = m * cp (thermal capacity of the volume). -/
def thermalCapacity (cfg : SimConfig) : ℝ :=
  massFromLiters cfg.liters water * water.cp

/-- runSimulation local: instantaneous pipe loss at the current temperature. -/
def localLoss (cfg : SimConfig) (T : JsN) : JsN :=
  (pipeHeatTransfer T cfg.ambientTemp cfg.innerRadius cfg.outerRadius
    cfg.pipeLength cfg.velocity cfg.mat water (muDefault water) none).QlossW

/-- One Euler update of runSimulation:
T + ((Pin - Qloss) / C) * dtStep with Pin = requiredPowerW. -/
def simStep (cfg : SimConfig) (dtStep : ℝ) (T : JsN) : JsN :=
  JsN.jsAdd T (JsN.jsMul (JsN.jsDiv (JsN.jsSub cfg.requiredPowerW
    (cfg.localLoss T)) (.fin cfg.thermalCapacity)) (.fin dtStep))

/-- The body of runSimulation's for-loop.  The loop variable of the source,
`for (let t = 0; t <= total; t += dtStep)`, is modelled exactly as
t = k * dtStep with k a natural step counter (real addition is exact, so the
accumulated t equals k * dtStep).  The extra fuel argument makes the
recursion structural; it is initialised (in runSimulation below) to a value
that is provably never exhausted before the loop guard fails whenever
dtStep > 0, so for positive step sizes the guard, not the fuel, ends the
loop.  The sample is pushed after the Euler update, and the loop breaks when
the updated temperature reaches the target. -/
def simLoop (cfg : SimConfig) (dtStep total : ℝ) :
    ℕ → ℕ → JsN → List (ℝ × JsN)
  | 0, _, _ => []
  | fuel + 1, k, T =>
      if (k : ℝ) * dtStep ≤ total then
        ((k : ℝ) * dtStep, cfg.simStep dtStep T) ::
          (if JsN.jle (.fin cfg.targetTemp) (cfg.simStep dtStep T) then []
           else simLoop cfg dtStep total fuel (k + 1) (cfg.simStep dtStep T))
      else []

/-- SimpleForm runSimulation: Euler integration from the initial temperature,
producing the list of (t, T) samples that the source pushes into `out`. -/
def runSimulation (cfg : SimConfig) (dtStep total : ℝ) : List (ℝ × JsN) :=
  simLoop cfg dtStep total ((⌊total / dtStep⌋).toNat + 1) 0
    (.fin cfg.initialTemp)

/-- SimpleForm runSimulation including its effect on component state: the
source ends with setSimData(out), which replaces the previous simData state
with the freshly computed trace.  The previous trace is an argument here and
is discarded, exactly as the source discards it. -/
def runSimulationApp (cfg : SimConfig) (dtStep total : ℝ)
    (_prevSimData : List (ℝ × JsN)) : List (ℝ × JsN) :=
  runSimulation cfg dtStep total

end SimConfig

/-- Termination and stopping behaviour of the simulation loop (the property
of claim C6): the result is unchanged by any surplus fuel (so for a positive
step the loop genuinely exits through its own guards), the trace length is
bounded by ceil(total/step) + 1, every recorded time is within the total
duration, and every non-final sample is strictly below the target (the loop
only continued because the target was not yet reached). -/
def simTerminationProp (cfg : SimConfig) (dtStep total : ℝ) : Prop :=
  (∀ fuel, (⌊total / dtStep⌋).toNat + 1 ≤ fuel →
      SimConfig.simLoop cfg dtStep total fuel 0 (.fin cfg.initialTemp) =
        SimConfig.runSimulation cfg dtStep total) ∧
  (SimConfig.runSimulation cfg dtStep total).length ≤
    (⌈total / dtStep⌉).toNat + 1 ∧
  (∀ p ∈ SimConfig.runSimulation cfg dtStep total, p.1 ≤ total) ∧
  (∀ l₁ p l₂, SimConfig.runSimulation cfg dtStep total = l₁ ++ p :: l₂ →
      l₂ ≠ [] → ¬ JsN.jle (.fin cfg.targetTemp) p.2)

/-- Shape of the recorded trace (the property of claim C10, amended): the
first sample is at time 0 and carries the initial temperature advanced by one
full Euler update; every later sample carries the Euler update of the
previous sample's temperature; and when the first updated temperature already
reaches the target, the trace is that single sample. -/
def simTraceShapeProp (cfg : SimConfig) (dtStep total : ℝ) : Prop :=
  (∀ p rest, SimConfig.runSimulation cfg dtStep total = p :: rest →
      p = (0, SimConfig.simStep cfg dtStep (.fin cfg.initialTemp))) ∧
  List.Chain' (fun p q => q.2 = SimConfig.simStep cfg dtStep p.2)
    (SimConfig.runSimulation cfg dtStep total) ∧
  (JsN.jle (.fin cfg.targetTemp)
      (SimConfig.simStep cfg dtStep (.fin cfg.initialTemp)) →
    SimConfig.runSimulation cfg dtStep total =
      [(0, SimConfig.simStep cfg dtStep (.fin cfg.initialTemp))])

/-- A concrete configuration used to exercise the simulation theorems:
1 L of water heated from 20 to 30 degrees in 1 minute, no flow, a 2 cm bore
pipe of wall thickness 0 (so the conduction path is open-circuit and the
pipe loss is exactly zero at every finite temperature).
Fields: liters, initialTemp, targetTemp, timeMin, flowLpm, innerDiameter,
thickness, pipeLength, ambientTemp, mat. -/
def cfgA : SimConfig := ⟨1, 20, 30, 1, 0, 1/50, 0, 1, 25, ⟨16⟩⟩

/-- Like cfgA but with the target equal to the initial temperature, so the
ideal power is zero and the very first Euler increment is exactly zero. -/
def cfgB : SimConfig := ⟨1, 20, 20, 1, 0, 1/50, 0, 1, 20, ⟨16⟩⟩

/-- A configuration whose pipe loss at the target temperature is strictly
negative: target 10 below ambient 21, inner radius 1 m, outer radius 2 m,
no flow. Fields as in cfgA. -/
def cfgC : SimConfig := ⟨100, 20, 10, 30, 0, 2, 1, 1, 21, ⟨16⟩⟩

/-- Like cfgA but cooling: the initial temperature 100 is above the target 0
and the requested time is half a second (timeMin = 1/120), so the ideal
power is a large negative number and every Euler increment is -200 degrees.
The first update therefore lands far below the target and the break is never
taken. Fields as in cfgA. -/
def cfgD : SimConfig := ⟨1, 100, 0, 1/120, 0, 1/50, 0, 1, 20, ⟨16⟩⟩

namespace JsN

@[simp] lemma jsAdd_fin_fin (x y : ℝ) : jsAdd (fin x) (fin y) = fin (x + y) := rfl

@[simp] lemma jsAdd_fin_inf (x : ℝ) : jsAdd (fin x) inf = inf := rfl

@[simp] lemma jsAdd_inf_fin (x : ℝ) : jsAdd inf (fin x) = inf := rfl

@[simp] lemma jsAdd_inf_inf : jsAdd inf inf = inf := rfl

@[simp] lemma jsSub_fin_fin (x y : ℝ) : jsSub (fin x) (fin y) = fin (x - y) := rfl

@[simp] lemma jsMul_fin_fin (x y : ℝ) : jsMul (fin x) (fin y) = fin (x * y) := rfl

@[simp] lemma jsMax_fin_fin (x y : ℝ) : jsMax (fin x) (fin y) = fin (max x y) := rfl

@[simp] lemma jsDiv_fin_inf (x : ℝ) : jsDiv (fin x) inf = fin 0 := rfl

lemma jsDiv_fin_fin {y : ℝ} (h : y ≠ 0) (x : ℝ) :
    jsDiv (fin x) (fin y) = fin (x / y) := by
  simp [jsDiv, h]

lemma jsDiv_fin_zero_pos {x : ℝ} (h : 0 < x) :
    jsDiv (fin x) (fin 0) = inf := by
  simp [jsDiv, h]

lemma jsLog_fin_pos {x : ℝ} (h : 0 < x) : jsLog (fin x) = fin (Real.log x) := by
  simp [jsLog, h]

lemma jpow_fin_nonneg {x : ℝ} (h : 0 ≤ x) (e : ℝ) :
    jpow (fin x) e = fin (Real.rpow x e) := by
  simp [jpow, h]

@[simp] lemma jle_fin_fin (x y : ℝ) : jle (fin x) (fin y) ↔ x ≤ y := Iff.rfl

@[simp] lemma jsTruthy_fin (x : ℝ) : jsTruthy (fin x) ↔ x ≠ 0 := Iff.rfl

lemma fin_ne_inf (x : ℝ) : fin x ≠ inf := by
  intro h
  exact JsN.noConfusion h

end JsN

lemma jsOr_fin_zero (d : JsN) : jsOr (.fin 0) d = d := by
  simp [jsOr, JsN.jsTruthy]

lemma jsOr_fin_ne {x : ℝ} (h : x ≠ 0) (d : JsN) : jsOr (.fin x) d = .fin x :=
  if_pos h

/-- The Reynolds number vanishes at zero velocity (nonzero viscosity). -/
lemma reynolds_velocity_zero {mu : ℝ} (rho D : ℝ) (hmu : mu ≠ 0) :
    reynolds rho 0 D mu = .fin 0 := by
  rw [reynolds, show rho * 0 * D = (0 : ℝ) by ring, JsN.jsDiv_fin_fin hmu,
    zero_div]

/-- The Dittus-Boelter correlation is guarded to zero at Re = 0. -/
lemma dittusBoelterNu_re_zero (Pr : JsN) :
    dittusBoelterNu (.fin 0) Pr = .fin 0 := by
  have h : JsN.jle (.fin 0) (.fin 0) ∨ JsN.jle Pr (.fin 0) :=
    Or.inl (le_refl (0 : ℝ))
  rw [dittusBoelterNu, if_pos h]

/-- At zero velocity, hInside yields Re = 0, Nu = 0 and h exactly 0
(for nonzero viscosity and diameter). -/
lemma hInside_velocity_zero (fluid : FluidSpec) {D mu : ℝ} (hmu : mu ≠ 0)
    (hD : D ≠ 0) :
    (hInside fluid 0 D mu).Re = .fin 0 ∧ (hInside fluid 0 D mu).Nu = .fin 0 ∧
      (hInside fluid 0 D mu).h = .fin 0 := by
  have hRe := reynolds_velocity_zero fluid.rho D hmu
  refine ⟨?_, ?_, ?_⟩ <;> simp only [hInside]
  · exact hRe
  · rw [hRe, dittusBoelterNu_re_zero]
  · rw [hRe, dittusBoelterNu_re_zero, JsN.jsMul_fin_fin, zero_mul,
      JsN.jsDiv_fin_fin hD, zero_div]

/-- At zero velocity the coefficient pipeHeatTransfer actually uses is the
epsilon floor 0.0001, visible in its hInside output field. -/
lemma pipeHeatTransfer_hIn_velocity_zero (fluid : FluidSpec)
    (mat : MaterialSpec) (ft : JsN) (amb ro L : ℝ) {ri mu : ℝ}
    (est : Option ℝ) (hri : ri ≠ 0) (hmu : mu ≠ 0) :
    (pipeHeatTransfer ft amb ri ro L 0 mat fluid mu est).hInside =
      .fin 0.0001 := by
  have hD : ri * 2 ≠ 0 := mul_ne_zero hri two_ne_zero
  have h := (hInside_velocity_zero fluid hmu hD).2.2
  simp only [pipeHeatTransfer]
  rw [h, jsOr_fin_zero]

/-- Claim C1 (amended): with velocity 0, hInside itself yields Re = 0, Nu = 0
and h exactly 0 — the h field of hInside is not floored.  The flooring to the
small positive epsilon 0.0001 happens downstream, in pipeHeatTransfer, whose
hInside output field (the coefficient actually used) is then exactly 0.0001,
which is positive, not zero and not NaN. -/
theorem hInside_velocity_zero_floored_downstream (fluid : FluidSpec)
    (D mu : ℝ) (hmu : mu ≠ 0) (hD : D ≠ 0) :
    ((hInside fluid 0 D mu).Re = .fin 0 ∧ (hInside fluid 0 D mu).Nu = .fin 0 ∧
      (hInside fluid 0 D mu).h = .fin 0) ∧
    ∀ (ft : JsN) (amb ro L : ℝ) (mat : MaterialSpec) (est : Option ℝ),
      (pipeHeatTransfer ft amb (D / 2) ro L 0 mat fluid mu est).hInside =
        .fin 0.0001 := by
  refine ⟨hInside_velocity_zero fluid hmu hD, ?_⟩
  intro ft amb ro L mat est
  exact pipeHeatTransfer_hIn_velocity_zero fluid mat ft amb ro L est
    (div_ne_zero hD two_ne_zero) hmu

/-- Claim C1 (counterexample): the claim asserts hInside with velocity 0
returns an h that is not zero; on the water record with diameter 0.1 the
returned h is exactly JsN.fin 0. -/
theorem hInside_velocity_zero_h_is_zero :
    (hInside water 0 (1/10) (1/1000)).h = JsN.fin 0 :=
  (hInside_velocity_zero water (by norm_num) (by norm_num)).2.2

/-- Claim C1 (witness): the amended theorem instantiated at the water record,
diameter 0.1 m and viscosity 0.001. -/
theorem hInside_velocity_zero_floored_downstream_witness :
    (1 : ℝ)/1000 ≠ 0 ∧ (1 : ℝ)/10 ≠ 0 ∧
    (((hInside water 0 (1/10) (1/1000)).Re = .fin 0 ∧
        (hInside water 0 (1/10) (1/1000)).Nu = .fin 0 ∧
        (hInside water 0 (1/10) (1/1000)).h = .fin 0) ∧
      ∀ (ft : JsN) (amb ro L : ℝ) (mat : MaterialSpec) (est : Option ℝ),
        (pipeHeatTransfer ft amb ((1/10) / 2) ro L 0 mat water (1/1000)
            est).hInside = .fin 0.0001) :=
  ⟨by norm_num, by norm_num,
    hInside_velocity_zero_floored_downstream water (1/10) (1/1000)
      (by norm_num) (by norm_num)⟩

/-- Claim C2 (amended): pipeConductionResistance returns +Infinity whenever
outerRadius is at most innerRadius, for every material and every length.
(The second half of the original claim is refuted separately: with
outerRadius strictly above a negative innerRadius the guard is not taken and
the result is finite, not +Infinity.) -/
theorem pipeConductionResistance_inverted_inf (ri ro L : ℝ)
    (mat : MaterialSpec) (h : ro ≤ ri) :
    pipeConductionResistance ri ro L mat = JsN.inf := by
  rw [pipeConductionResistance, if_pos h]

/-- Claim C2 (witness): inverted radii 2 and 1. -/
theorem pipeConductionResistance_inverted_inf_witness :
    (1 : ℝ) ≤ 2 ∧ pipeConductionResistance 2 1 1 ⟨16⟩ = JsN.inf :=
  ⟨by norm_num,
    pipeConductionResistance_inverted_inf 2 1 1 ⟨16⟩ (by norm_num)⟩

/-- Claim C2 (counterexample): the claim also asserts +Infinity whenever
innerRadius is nonpositive while outerRadius exceeds it; with
innerRadius = -2, outerRadius = -1, length 1 the guard is not taken,
Math.log receives (-1)/(-2) = 0.5, and the result is the finite value
log(0.5)/(2 pi k), not +Infinity. -/
theorem pipeConductionResistance_neg_inner_not_inf :
    pipeConductionResistance (-2) (-1) 1 ⟨1⟩ ≠ JsN.inf := by
  rw [pipeConductionResistance, if_neg (by norm_num : ¬((-1 : ℝ) ≤ -2)),
    JsN.jsDiv_fin_fin (by norm_num : (-2 : ℝ) ≠ 0),
    JsN.jsLog_fin_pos (by norm_num : (0 : ℝ) < (-1) / (-2)),
    JsN.jsDiv_fin_fin (by positivity : 2 * Real.pi *
      (MaterialSpec.mk 1).k * 1 ≠ 0)]
  exact JsN.fin_ne_inf _

/-- Claim C3 (counterexample): with the water record fixed by the claim's own
premise (massFromLiters(200) = 198.6, cp = 4186), powerToHeatVolume(200, 55,
1800) returns powerW = 198.6 * 4186 * 55 / 1800 = 25402.04... W, which is more
than 825 W below the claimed approximate value of 26228 W (over 3 percent
off), so powerW is not approximately 26228 W. -/
theorem powerToHeatVolume_approx_not_26228 :
    (powerToHeatVolume 200 55 1800 water).powerW =
      .fin (198.6 * 4186 * 55 / 1800) ∧
    198.6 * 4186 * 55 / 1800 + 825 < (26228 : ℝ) := by
  constructor
  · simp only [powerToHeatVolume]
    rw [JsN.jsDiv_fin_fin (by norm_num : (1800 : ℝ) ≠ 0)]
    congr 1
    simp only [massFromLiters, water]
    norm_num
  · norm_num

/-- Claim C3 (amended): powerToHeatVolume(200, 55, 1800) on the water record
returns massKg = 198.6 kg, energyJ = 198.6 * 4186 * 55 J exactly, and
powerW = energyJ / 1800, which is approximately 25402 W (strictly between
25402 and 25403), not 26228 W. -/
theorem powerToHeatVolume_200_55_1800 :
    (powerToHeatVolume 200 55 1800 water).massKg = 198.6 ∧
    (powerToHeatVolume 200 55 1800 water).energyJ = 198.6 * 4186 * 55 ∧
    (powerToHeatVolume 200 55 1800 water).powerW =
      .fin (198.6 * 4186 * 55 / 1800) ∧
    (25402 : ℝ) < 198.6 * 4186 * 55 / 1800 ∧
    198.6 * 4186 * 55 / 1800 < (25403 : ℝ) := by
  refine ⟨?_, ?_, ?_, ?_, ?_⟩
  · simp only [powerToHeatVolume, massFromLiters, water]
    norm_num
  · simp only [powerToHeatVolume, massFromLiters, water]
    norm_num
  · simp only [powerToHeatVolume]
    rw [JsN.jsDiv_fin_fin (by norm_num : (1800 : ℝ) ≠ 0)]
    congr 1
    simp only [massFromLiters, water]
    norm_num
  · norm_num
  · norm_num

/-- Claim C5: powerToHeatVolume has no guard on the duration: for positive
volume and temperature delta, a duration of exactly 0 produces a silent
JavaScript Infinity in the powerW field (no error is reported). -/
theorem powerToHeatVolume_zero_duration (liters deltaT_C : ℝ)
    (hl : 0 < liters) (hd : 0 < deltaT_C) :
    (powerToHeatVolume liters deltaT_C 0 water).powerW = JsN.inf := by
  have hQ : 0 < massFromLiters liters water * water.cp * deltaT_C := by
    simp only [massFromLiters, water]
    positivity
  simp only [powerToHeatVolume]
  exact JsN.jsDiv_fin_zero_pos hQ

/-- Claim C5 (witness): 200 liters heated by 55 degrees in 0 seconds. -/
theorem powerToHeatVolume_zero_duration_witness :
    (0 : ℝ) < 200 ∧ (0 : ℝ) < 55 ∧
    (powerToHeatVolume 200 55 0 water).powerW = JsN.inf :=
  ⟨by norm_num, by norm_num,
    powerToHeatVolume_zero_duration 200 55 (by norm_num) (by norm_num)⟩

lemma jsAdd_fin_zero_right (a : JsN) : JsN.jsAdd a (.fin 0) = a := by
  cases a <;> simp [JsN.jsAdd]

lemma jsOrR_of_ne {x : ℝ} (h : x ≠ 0) (d : ℝ) : jsOrR x d = x := if_neg h

/-- Evaluation of convectiveResistance on a positive finite coefficient and a
positive area: the finite, positive resistance 1/(h*A). -/
lemma convectiveResistance_pos {x : ℝ} (hx : 0 < x) {r L : ℝ}
    (hA : 0 < 2 * Real.pi * r * L) :
    convectiveResistance (.fin x) r L =
      .fin (1 / (x * (2 * Real.pi * r * L))) ∧
    0 < 1 / (x * (2 * Real.pi * r * L)) := by
  have hcond : ¬(JsN.jle (.fin x) (.fin 0) ∨ 2 * Real.pi * r * L ≤ 0) := by
    rintro (h | h)
    · exact absurd (show x ≤ 0 from h) (not_le.mpr hx)
    · exact absurd h (not_le.mpr hA)
  constructor
  · rw [convectiveResistance, if_neg hcond, JsN.jsMul_fin_fin,
      JsN.jsDiv_fin_fin (ne_of_gt (mul_pos hx hA))]
  · exact div_pos one_pos (mul_pos hx hA)

/-- Under the fluid invariant k > 0 (and a positive diameter), the h computed
by hInside is either exactly zero (degenerate regime, guarded Nusselt) or
finite and strictly positive (turbulent regime). -/
lemma hInside_h_cases (fluid : FluidSpec) (v D mu : ℝ) (hk : 0 < fluid.k)
    (hD : 0 < D) (hmu : mu ≠ 0) :
    (hInside fluid v D mu).h = .fin 0 ∨
      ∃ x, (hInside fluid v D mu).h = .fin x ∧ 0 < x := by
  have hkeff : jsOrR fluid.k 0.6 = fluid.k := jsOrR_of_ne (ne_of_gt hk) _
  simp only [hInside, reynolds, prandtl, hkeff]
  rw [JsN.jsDiv_fin_fin hmu, JsN.jsDiv_fin_fin (ne_of_gt hk)]
  by_cases hc : JsN.jle (.fin (fluid.rho * v * D / mu)) (.fin 0) ∨
      JsN.jle (.fin (fluid.cp * mu / fluid.k)) (.fin 0)
  · left
    rw [dittusBoelterNu, if_pos hc, JsN.jsMul_fin_fin, zero_mul,
      JsN.jsDiv_fin_fin (ne_of_gt hD), zero_div]
  · right
    have hre : 0 < fluid.rho * v * D / mu := by
      by_contra h
      exact hc (Or.inl (not_lt.mp h))
    have hpr : 0 < fluid.cp * mu / fluid.k := by
      by_contra h
      exact hc (Or.inr (not_lt.mp h))
    rw [dittusBoelterNu, if_neg hc, JsN.jpow_fin_nonneg hre.le,
      JsN.jpow_fin_nonneg hpr.le, JsN.jsMul_fin_fin, JsN.jsMul_fin_fin,
      JsN.jsMul_fin_fin, JsN.jsDiv_fin_fin (ne_of_gt hD)]
    refine ⟨_, rfl, ?_⟩
    have h1 : 0 < Real.rpow (fluid.rho * v * D / mu) 0.8 :=
      Real.rpow_pos_of_pos hre _
    have h2 : 0 < Real.rpow (fluid.cp * mu / fluid.k) 0.4 :=
      Real.rpow_pos_of_pos hpr _
    have h3 : (0 : ℝ) < 0.023 := by norm_num
    exact div_pos (mul_pos (mul_pos (mul_pos h3 h1) h2) hk) hD

/-- Claim C9: in pipeHeatTransfer the coefficient actually used is inside.h
with 0.0001 substituted whenever inside.h is falsy (zero or NaN), so the
hInside output field is exactly 0.0001 in those cases; and under the
data-model fluid invariant (positive conductivity), for positive innerRadius
and length the internal convective resistance is finite and strictly positive
— the Infinity branch of convectiveResistance is unreachable for that term. -/
theorem pipeHeatTransfer_hIn_floor_and_RconvIn_finite (fluid : FluidSpec)
    (mat : MaterialSpec) (ft : JsN) (amb ri ro L v mu : ℝ) (est : Option ℝ)
    (hk : 0 < fluid.k) (hri : 0 < ri) (hL : 0 < L) (hmu : mu ≠ 0) :
    (¬ JsN.jsTruthy (hInside fluid v (ri * 2) mu).h →
        (pipeHeatTransfer ft amb ri ro L v mat fluid mu est).hInside =
          .fin 0.0001) ∧
    ∃ x, (pipeHeatTransfer ft amb ri ro L v mat fluid mu est).RconvIn =
        .fin x ∧ 0 < x := by
  have hD : 0 < ri * 2 := mul_pos hri two_pos
  have hA : 0 < 2 * Real.pi * ri * L :=
    mul_pos (mul_pos (mul_pos two_pos Real.pi_pos) hri) hL
  constructor
  · intro hfalsy
    simp only [pipeHeatTransfer]
    rw [jsOr, if_neg hfalsy]
  · rcases hInside_h_cases fluid v (ri * 2) mu hk hD hmu with h0 | ⟨x, hx, hxpos⟩
    · simp only [pipeHeatTransfer]
      rw [h0, jsOr_fin_zero]
      obtain ⟨h1, h2⟩ :=
        convectiveResistance_pos (by norm_num : (0 : ℝ) < 0.0001) hA
      exact ⟨_, h1, h2⟩
    · simp only [pipeHeatTransfer]
      rw [hx, jsOr_fin_ne (ne_of_gt hxpos)]
      obtain ⟨h1, h2⟩ := convectiveResistance_pos hxpos hA
      exact ⟨_, h1, h2⟩

/-- Claim C9 (witness): the water record, a 1 cm inner radius, 1 m length,
zero velocity. -/
theorem pipeHeatTransfer_hIn_floor_and_RconvIn_finite_witness :
    0 < water.k ∧ 0 < (1/100 : ℝ) ∧ 0 < (1 : ℝ) ∧ (1/1000 : ℝ) ≠ 0 ∧
    ((¬ JsN.jsTruthy (hInside water 0 ((1/100) * 2) (1/1000)).h →
        (pipeHeatTransfer (.fin 60) 20 (1/100) (1/50) 1 0 ⟨16⟩ water (1/1000)
            none).hInside = .fin 0.0001) ∧
      ∃ x, (pipeHeatTransfer (.fin 60) 20 (1/100) (1/50) 1 0 ⟨16⟩ water
          (1/1000) none).RconvIn = .fin x ∧ 0 < x) :=
  ⟨by norm_num [water], by norm_num, by norm_num, by norm_num,
    pipeHeatTransfer_hIn_floor_and_RconvIn_finite water ⟨16⟩ (.fin 60) 20
      (1/100) (1/50) 1 0 (1/1000) none (by norm_num [water]) (by norm_num)
      (by norm_num) (by norm_num)⟩

/-- The heat loss of pipeHeatTransfer is, definitionally, the temperature
difference divided by the total resistance it reports. -/
lemma pipeHeatTransfer_QlossW_eq (ftJ : JsN) (amb ri ro L v mu : ℝ)
    (mat : MaterialSpec) (fluid : FluidSpec) (est : Option ℝ) :
    (pipeHeatTransfer ftJ amb ri ro L v mat fluid mu est).QlossW =
      JsN.jsDiv (JsN.jsSub ftJ (.fin amb))
        ((pipeHeatTransfer ftJ amb ri ro L v mat fluid mu est).Rtotal) := rfl

/-- Claim C4: with a finite positive total resistance and fluid temperature
below ambient, pipeHeatTransfer reports the signed negative loss unmodified
in QlossW; and the energy balance adds Math.max(0, QlossW) to the ideal
power, so a negative loss is floored to zero and requiredPowerW collapses to
the ideal power alone — the heat gain is never subtracted. -/
theorem pipeHeatTransfer_negative_loss_signed_and_floored :
    (∀ (ft amb ri ro L v mu : ℝ) (mat : MaterialSpec) (fluid : FluidSpec)
        (est : Option ℝ) (r : ℝ),
        (pipeHeatTransfer (.fin ft) amb ri ro L v mat fluid mu est).Rtotal =
          .fin r →
        0 < r → ft < amb →
        (pipeHeatTransfer (.fin ft) amb ri ro L v mat fluid mu est).QlossW =
          .fin ((ft - amb) / r) ∧ (ft - amb) / r < 0) ∧
    ∀ (cfg : SimConfig) (q : ℝ),
      (SimConfig.pipeTransfer cfg).QlossW = .fin q → q < 0 →
      SimConfig.requiredPowerW cfg = (SimConfig.powerIdeal cfg).powerW := by
  constructor
  · intro ft amb ri ro L v mu mat fluid est r hR hr hlt
    constructor
    · rw [pipeHeatTransfer_QlossW_eq, hR, JsN.jsSub_fin_fin,
        JsN.jsDiv_fin_fin (ne_of_gt hr)]
    · exact div_neg_of_neg_of_pos (sub_neg.mpr hlt) hr
  · intro cfg q hq hq0
    rw [SimConfig.requiredPowerW, hq, jsOr_fin_ne (ne_of_lt hq0),
      JsN.jsMax_fin_fin, max_eq_left hq0.le, jsAdd_fin_zero_right]

/-- The component velocity is zero whenever the flow input is zero (both
branches of the area guard produce zero). -/
lemma velocity_eq_zero_of_flow_zero (cfg : SimConfig) (h : cfg.flowLpm = 0) :
    SimConfig.velocity cfg = 0 := by
  rw [SimConfig.velocity]
  split
  · rfl
  · rw [SimConfig.flow_m3s, h]
    norm_num

/-- cfgC resolves to a concrete pipeHeatTransfer call: target 10 against
ambient 21, radii 1 and 2, length 1, zero velocity. -/
lemma pipeTransfer_cfgC :
    SimConfig.pipeTransfer cfgC =
      pipeHeatTransfer (.fin 10) 21 1 2 1 0 ⟨16⟩ water (1/1000) none := by
  have hv : SimConfig.velocity cfgC = 0 :=
    velocity_eq_zero_of_flow_zero cfgC rfl
  rw [SimConfig.pipeTransfer, hv]
  norm_num [cfgC, SimConfig.innerRadius, SimConfig.outerRadius, muDefault,
    jsOrR, water]

/-- Full evaluation of pipeHeatTransfer at zero velocity on sound geometry:
the total resistance is the finite positive sum of the three series terms
(with the internal coefficient floored to 0.0001) and the loss is the
temperature difference over it. -/
lemma pipeHeatTransfer_v0_eval (ft amb ri ro L mu : ℝ) (mat : MaterialSpec)
    (fluid : FluidSpec) (hri : 0 < ri) (hro : ri < ro) (hL : 0 < L)
    (hk : 0 < mat.k) (hmu : mu ≠ 0) :
    ∃ R, (pipeHeatTransfer (.fin ft) amb ri ro L 0 mat fluid mu none).Rtotal =
        .fin R ∧ 0 < R ∧
      (pipeHeatTransfer (.fin ft) amb ri ro L 0 mat fluid mu none).QlossW =
        .fin ((ft - amb) / R) := by
  have hro0 : 0 < ro := hri.trans hro
  have hD : ri * 2 ≠ 0 := ne_of_gt (mul_pos hri two_pos)
  have h0 := (hInside_velocity_zero fluid hmu hD).2.2
  have hA : 0 < 2 * Real.pi * ri * L :=
    mul_pos (mul_pos (mul_pos two_pos Real.pi_pos) hri) hL
  have hA' : 0 < 2 * Real.pi * ro * L :=
    mul_pos (mul_pos (mul_pos two_pos Real.pi_pos) hro0) hL
  obtain ⟨hRin, hRinpos⟩ :=
    convectiveResistance_pos (by norm_num : (0 : ℝ) < 0.0001) hA
  obtain ⟨hRout, hRoutpos⟩ :=
    convectiveResistance_pos (by norm_num : (0 : ℝ) < 10) hA'
  have h2k : (0 : ℝ) < 2 * Real.pi * mat.k * L :=
    mul_pos (mul_pos (mul_pos two_pos Real.pi_pos) hk) hL
  have hlog : 0 < Real.log (ro / ri) := Real.log_pos ((one_lt_div hri).mpr hro)
  have hcond : pipeConductionResistance ri ro L mat =
      .fin (Real.log (ro / ri) / (2 * Real.pi * mat.k * L)) := by
    rw [pipeConductionResistance, if_neg (not_le.mpr hro),
      JsN.jsDiv_fin_fin (ne_of_gt hri),
      JsN.jsLog_fin_pos (div_pos hro0 hri),
      JsN.jsDiv_fin_fin (ne_of_gt h2k)]
  have hcondpos : 0 < Real.log (ro / ri) / (2 * Real.pi * mat.k * L) :=
    div_pos hlog h2k
  have hRpos : 0 < 1 / (0.0001 * (2 * Real.pi * ri * L)) +
      Real.log (ro / ri) / (2 * Real.pi * mat.k * L) +
      1 / (10 * (2 * Real.pi * ro * L)) :=
    add_pos (add_pos hRinpos hcondpos) hRoutpos
  have hRtot :
      (pipeHeatTransfer (.fin ft) amb ri ro L 0 mat fluid mu none).Rtotal =
        .fin (1 / (0.0001 * (2 * Real.pi * ri * L)) +
          Real.log (ro / ri) / (2 * Real.pi * mat.k * L) +
          1 / (10 * (2 * Real.pi * ro * L))) := by
    simp only [pipeHeatTransfer, Option.getD_none]
    rw [h0, jsOr_fin_zero, hRin, hcond, hRout, JsN.jsAdd_fin_fin,
      JsN.jsAdd_fin_fin]
  refine ⟨_, hRtot, hRpos, ?_⟩
  rw [pipeHeatTransfer_QlossW_eq, hRtot, JsN.jsSub_fin_fin,
    JsN.jsDiv_fin_fin (ne_of_gt hRpos)]

/-- Claim C4 (witness): the first part at the concrete call with target 10,
ambient 21, radii 1 and 2, and the second part at cfgC, whose pipeTransfer is
exactly that call. -/
theorem pipeHeatTransfer_negative_loss_witness :
    (∃ r : ℝ,
        (pipeHeatTransfer (.fin 10) 21 1 2 1 0 ⟨16⟩ water (1/1000)
            none).Rtotal = .fin r ∧ 0 < r ∧
        (pipeHeatTransfer (.fin 10) 21 1 2 1 0 ⟨16⟩ water (1/1000)
            none).QlossW = .fin ((10 - 21) / r) ∧ (10 - 21 : ℝ) / r < 0) ∧
    SimConfig.requiredPowerW cfgC = (SimConfig.powerIdeal cfgC).powerW := by
  obtain ⟨R, hR, hRpos, hQ⟩ :=
    pipeHeatTransfer_v0_eval 10 21 1 2 1 (1/1000) ⟨16⟩ water one_pos
      one_lt_two one_pos (show (0 : ℝ) < 16 by norm_num) (by norm_num)
  have h1 := pipeHeatTransfer_negative_loss_signed_and_floored.1 10 21 1 2 1 0
    (1/1000) ⟨16⟩ water none R hR hRpos (by norm_num)
  refine ⟨⟨R, hR, hRpos, h1.1, h1.2⟩, ?_⟩
  have hq2 : (SimConfig.pipeTransfer cfgC).QlossW = .fin ((10 - 21) / R) := by
    rw [pipeTransfer_cfgC]
    exact hQ
  exact pipeHeatTransfer_negative_loss_signed_and_floored.2 cfgC _ hq2 h1.2

lemma simLoop_zero (cfg : SimConfig) (dtStep total : ℝ) (k : ℕ) (T : JsN) :
    SimConfig.simLoop cfg dtStep total 0 k T = [] := rfl

lemma simLoop_succ (cfg : SimConfig) (dtStep total : ℝ) (fuel k : ℕ)
    (T : JsN) :
    SimConfig.simLoop cfg dtStep total (fuel + 1) k T =
      if (k : ℝ) * dtStep ≤ total then
        ((k : ℝ) * dtStep, SimConfig.simStep cfg dtStep T) ::
          (if JsN.jle (.fin cfg.targetTemp) (SimConfig.simStep cfg dtStep T)
           then []
           else SimConfig.simLoop cfg dtStep total fuel (k + 1)
             (SimConfig.simStep cfg dtStep T))
      else [] := rfl

lemma simLoop_unfold (cfg : SimConfig) (dtStep total : ℝ) {fuel n : ℕ}
    (h : fuel = n + 1) (k : ℕ) (T : JsN) :
    SimConfig.simLoop cfg dtStep total fuel k T =
      if (k : ℝ) * dtStep ≤ total then
        ((k : ℝ) * dtStep, SimConfig.simStep cfg dtStep T) ::
          (if JsN.jle (.fin cfg.targetTemp) (SimConfig.simStep cfg dtStep T)
           then []
           else SimConfig.simLoop cfg dtStep total n (k + 1)
             (SimConfig.simStep cfg dtStep T))
      else [] := by
  subst h
  exact simLoop_succ cfg dtStep total n k T

/-- The loop guard t <= total, with t = k * dtStep, holds exactly for step
indices up to the floor of total/dtStep (for a positive step). -/
lemma simGuard_iff {dtStep total : ℝ} (hdt : 0 < dtStep) (k : ℕ) :
    ((k : ℝ) * dtStep ≤ total) ↔ (k : ℤ) ≤ ⌊total / dtStep⌋ := by
  rw [Int.le_floor, le_div_iff₀ hdt]
  push_cast
  exact Iff.rfl

lemma simGuard_false {dtStep total : ℝ} (hdt : 0 < dtStep) {k : ℕ}
    (hk : (⌊total / dtStep⌋).toNat + 1 ≤ k) :
    ¬((k : ℝ) * dtStep ≤ total) := by
  intro h
  rw [simGuard_iff hdt] at h
  have h2 : ((k : ℤ)).toNat ≤ (⌊total / dtStep⌋).toNat := Int.toNat_le_toNat h
  rw [Int.toNat_natCast] at h2
  omega

lemma simLoop_length_le (cfg : SimConfig) (dtStep total : ℝ) :
    ∀ (fuel k : ℕ) (T : JsN),
      (SimConfig.simLoop cfg dtStep total fuel k T).length ≤ fuel := by
  intro fuel
  induction fuel with
  | zero =>
      intro k T
      rw [simLoop_zero]
      exact le_refl 0
  | succ f ih =>
      intro k T
      rw [simLoop_succ]
      split
      · simp only [List.length_cons]
        have h : (if JsN.jle (.fin cfg.targetTemp)
              (SimConfig.simStep cfg dtStep T) then ([] : List (ℝ × JsN))
            else SimConfig.simLoop cfg dtStep total f (k + 1)
              (SimConfig.simStep cfg dtStep T)).length ≤ f := by
          split
          · simp
          · exact ih (k + 1) _
        omega
      · simp

/-- For a positive step size, any fuel at least floor(total/dtStep)+1 minus
the current index gives the same loop result: the fuel is never what stops
the loop. -/
lemma simLoop_fuel_congr (cfg : SimConfig) {dtStep : ℝ} (total : ℝ)
    (hdt : 0 < dtStep) :
    ∀ (f₁ f₂ k : ℕ) (T : JsN),
      (⌊total / dtStep⌋).toNat + 1 ≤ f₁ + k →
      (⌊total / dtStep⌋).toNat + 1 ≤ f₂ + k →
      SimConfig.simLoop cfg dtStep total f₁ k T =
        SimConfig.simLoop cfg dtStep total f₂ k T := by
  intro f₁
  induction f₁ with
  | zero =>
      intro f₂ k T h1 h2
      have hg : ¬((k : ℝ) * dtStep ≤ total) := simGuard_false hdt (by omega)
      cases f₂ with
      | zero => rfl
      | succ g => rw [simLoop_zero, simLoop_succ, if_neg hg]
  | succ f ih =>
      intro f₂ k T h1 h2
      cases f₂ with
      | zero =>
          have hg : ¬((k : ℝ) * dtStep ≤ total) :=
            simGuard_false hdt (by omega)
          rw [simLoop_zero, simLoop_succ, if_neg hg]
      | succ g =>
          rw [simLoop_succ, simLoop_succ]
          by_cases hg : (k : ℝ) * dtStep ≤ total
          · rw [if_pos hg, if_pos hg]
            congr 1
            by_cases hb : JsN.jle (.fin cfg.targetTemp)
                (SimConfig.simStep cfg dtStep T)
            · rw [if_pos hb, if_pos hb]
            · rw [if_neg hb, if_neg hb]
              exact ih g (k + 1) _ (by omega) (by omega)
          · rw [if_neg hg, if_neg hg]

lemma simLoop_time_le (cfg : SimConfig) (dtStep total : ℝ) :
    ∀ (fuel k : ℕ) (T : JsN),
      ∀ p ∈ SimConfig.simLoop cfg dtStep total fuel k T, p.1 ≤ total := by
  intro fuel
  induction fuel with
  | zero =>
      intro k T p hp
      rw [simLoop_zero] at hp
      simp at hp
  | succ f ih =>
      intro k T p hp
      rw [simLoop_succ] at hp
      by_cases hg : (k : ℝ) * dtStep ≤ total
      · rw [if_pos hg] at hp
        rcases List.mem_cons.mp hp with h | h
        · rw [h]
          exact hg
        · by_cases hb : JsN.jle (.fin cfg.targetTemp)
              (SimConfig.simStep cfg dtStep T)
          · rw [if_pos hb] at h
            simp at h
          · rw [if_neg hb] at h
            exact ih (k + 1) _ p h
      · rw [if_neg hg] at hp
        simp at hp

lemma simLoop_nonfinal_below (cfg : SimConfig) (dtStep total : ℝ) :
    ∀ (fuel k : ℕ) (T : JsN) (l₁ : List (ℝ × JsN)) (p : ℝ × JsN)
      (l₂ : List (ℝ × JsN)),
      SimConfig.simLoop cfg dtStep total fuel k T = l₁ ++ p :: l₂ →
      l₂ ≠ [] → ¬ JsN.jle (.fin cfg.targetTemp) p.2 := by
  intro fuel
  induction fuel with
  | zero =>
      intro k T l₁ p l₂ h _
      rw [simLoop_zero] at h
      exact absurd h (by simp)
  | succ f ih =>
      intro k T l₁ p l₂ h hne
      rw [simLoop_succ] at h
      by_cases hg : (k : ℝ) * dtStep ≤ total
      · rw [if_pos hg] at h
        by_cases hb : JsN.jle (.fin cfg.targetTemp)
            (SimConfig.simStep cfg dtStep T)
        · rw [if_pos hb] at h
          cases l₁ with
          | nil =>
              rw [List.nil_append] at h
              injection h with h1 h2
              exact absurd h2.symm hne
          | cons a l₁' =>
              rw [List.cons_append] at h
              injection h with h1 h2
              exact absurd h2.symm (by simp)
        · rw [if_neg hb] at h
          cases l₁ with
          | nil =>
              rw [List.nil_append] at h
              injection h with h1 h2
              rw [← h1]
              exact hb
          | cons a l₁' =>
              rw [List.cons_append] at h
              injection h with h1 h2
              exact ih (k + 1) _ l₁' p l₂ h2 hne
      · rw [if_neg hg] at h
        exact absurd h (by simp)

lemma simLoop_head (cfg : SimConfig) (dtStep total : ℝ) :
    ∀ (fuel k : ℕ) (T : JsN) (p : ℝ × JsN) (rest : List (ℝ × JsN)),
      SimConfig.simLoop cfg dtStep total fuel k T = p :: rest →
      p = ((k : ℝ) * dtStep, SimConfig.simStep cfg dtStep T) := by
  intro fuel k T p rest h
  cases fuel with
  | zero =>
      rw [simLoop_zero] at h
      exact absurd h (by simp)
  | succ f =>
      rw [simLoop_succ] at h
      by_cases hg : (k : ℝ) * dtStep ≤ total
      · rw [if_pos hg] at h
        injection h with h1 _
        exact h1.symm
      · rw [if_neg hg] at h
        exact absurd h (by simp)

/-- Adjacent samples of the loop are related by one Euler update: the
temperature recorded at each sample is the update of the previous one. -/
lemma simLoop_chain (cfg : SimConfig) (dtStep total : ℝ) :
    ∀ (fuel k : ℕ) (T : JsN),
      List.Chain' (fun p q => q.2 = SimConfig.simStep cfg dtStep p.2)
        (SimConfig.simLoop cfg dtStep total fuel k T) := by
  intro fuel
  induction fuel with
  | zero =>
      intro k T
      rw [simLoop_zero]
      exact List.chain'_nil
  | succ f ih =>
      intro k T
      rw [simLoop_succ]
      by_cases hg : (k : ℝ) * dtStep ≤ total
      · rw [if_pos hg]
        by_cases hb : JsN.jle (.fin cfg.targetTemp)
            (SimConfig.simStep cfg dtStep T)
        · rw [if_pos hb]
          exact List.chain'_singleton _
        · rw [if_neg hb]
          rcases htail : SimConfig.simLoop cfg dtStep total f (k + 1)
              (SimConfig.simStep cfg dtStep T) with _ | ⟨c, rest⟩
          · exact List.chain'_singleton _
          · refine List.chain'_cons.mpr ⟨?_, ?_⟩
            · have hc := simLoop_head cfg dtStep total f (k + 1) _ c rest htail
              rw [hc]
            · have := ih (k + 1) (SimConfig.simStep cfg dtStep T)
              rwa [htail] at this
      · rw [if_neg hg]
        exact List.chain'_nil

/-- Claim C6: for a positive step and nonnegative duration the simulation
loop terminates through its own guards (surplus fuel does not change the
result), stops at the earlier of the duration bound or the target being
reached, and never records more than ceil(total/dtStep) + 1 samples. -/
theorem runSimulation_terminates_and_bounded (cfg : SimConfig)
    (dtStep total : ℝ) (hdt : 0 < dtStep) (htot : 0 ≤ total) :
    simTerminationProp cfg dtStep total := by
  refine ⟨?_, ?_, ?_, ?_⟩
  · intro fuel hfuel
    exact simLoop_fuel_congr cfg total hdt fuel
      ((⌊total / dtStep⌋).toNat + 1) 0 _ (by omega) (by omega)
  · have h1 := simLoop_length_le cfg dtStep total
      ((⌊total / dtStep⌋).toNat + 1) 0 (.fin cfg.initialTemp)
    have h2 : (⌊total / dtStep⌋).toNat ≤ (⌈total / dtStep⌉).toNat :=
      Int.toNat_le_toNat (Int.floor_le_ceil _)
    calc (SimConfig.runSimulation cfg dtStep total).length
        ≤ (⌊total / dtStep⌋).toNat + 1 := h1
      _ ≤ (⌈total / dtStep⌉).toNat + 1 := by omega
  · intro p hp
    exact simLoop_time_le cfg dtStep total _ 0 _ p hp
  · intro l₁ p l₂ h hne
    exact simLoop_nonfinal_below cfg dtStep total _ 0 _ l₁ p l₂ h hne

/-- Claim C6 (witness): cfgA with unit step and zero duration. -/
theorem runSimulation_terminates_and_bounded_witness :
    (0 : ℝ) < 1 ∧ (0 : ℝ) ≤ 0 ∧ simTerminationProp cfgA 1 0 :=
  ⟨by norm_num, le_refl 0,
    runSimulation_terminates_and_bounded cfgA 1 0 (by norm_num) (le_refl 0)⟩

/-- Claim C10 (amended): every sample records the post-update temperature
(the first sample, at t = 0, is the initial temperature advanced by one full
Euler increment, and each subsequent sample is the update of the previous
one); since the increment can be zero, the initial temperature itself can
appear in the trace; and when the first updated temperature already
reaches or exceeds the target, the trace is exactly that single sample. -/
theorem runSimulation_records_post_update (cfg : SimConfig)
    (dtStep total : ℝ) (htot : 0 ≤ total) :
    simTraceShapeProp cfg dtStep total := by
  refine ⟨?_, ?_, ?_⟩
  · intro p rest h
    rw [SimConfig.runSimulation] at h
    have h1 := simLoop_head cfg dtStep total _ 0 _ p rest h
    rw [h1]
    norm_num
  · exact simLoop_chain cfg dtStep total _ 0 _
  · intro hjle
    rw [SimConfig.runSimulation, simLoop_succ,
      if_pos (show ((0 : ℕ) : ℝ) * dtStep ≤ total by simpa using htot),
      if_pos hjle]
    norm_num

/-- Claim C10 (witness): cfgA with unit step and zero duration. -/
theorem runSimulation_records_post_update_witness :
    (0 : ℝ) ≤ 0 ∧ simTraceShapeProp cfgA 1 0 :=
  ⟨le_refl 0, runSimulation_records_post_update cfgA 1 0 (le_refl 0)⟩

lemma jsOr_ne_nan {a d : JsN} (hd : d ≠ .nan) : jsOr a d ≠ .nan := by
  by_cases ht : JsN.jsTruthy a
  · rw [jsOr, if_pos ht]
    cases a with
    | fin x => exact fun hcon => JsN.noConfusion hcon
    | inf => exact fun hcon => JsN.noConfusion hcon
    | ninf => exact fun hcon => JsN.noConfusion hcon
    | nan => exact ht.elim
  · rw [jsOr, if_neg ht]
    exact hd

/-- convectiveResistance on a non-NaN coefficient is finite or +Infinity. -/
lemma convectiveResistance_fin_or_inf (h : JsN) (r L : ℝ) (hh : h ≠ .nan) :
    (∃ x, convectiveResistance h r L = .fin x) ∨
      convectiveResistance h r L = .inf := by
  by_cases hc : JsN.jle h (.fin 0) ∨ 2 * Real.pi * r * L ≤ 0
  · right
    rw [convectiveResistance, if_pos hc]
  · left
    obtain ⟨h1, h2⟩ := not_or.mp hc
    have hA : 0 < 2 * Real.pi * r * L := lt_of_not_le h2
    rw [convectiveResistance, if_neg hc]
    cases h with
    | fin x =>
        have hx : 0 < x := lt_of_not_le (fun hle => h1 hle)
        rw [JsN.jsMul_fin_fin]
        exact ⟨_, JsN.jsDiv_fin_fin (ne_of_gt (mul_pos hx hA)) 1⟩
    | inf =>
        have hmul : JsN.jsMul JsN.inf (.fin (2 * Real.pi * r * L)) = JsN.inf := by
          simp [JsN.jsMul, hA]
        rw [hmul]
        exact ⟨0, rfl⟩
    | ninf => exact absurd trivial h1
    | nan => exact absurd rfl hh

/-- With inverted (or equal) radii the conduction term is +Infinity, and the
series sum is +Infinity whatever the two finite-or-infinite convective terms
are. -/
lemma pipeHeatTransfer_Rtotal_inf_of_inverted (ftJ : JsN)
    (amb ri ro L v mu : ℝ) (mat : MaterialSpec) (fluid : FluidSpec)
    (hro : ro ≤ ri) :
    (pipeHeatTransfer ftJ amb ri ro L v mat fluid mu none).Rtotal = .inf := by
  have hcond : pipeConductionResistance ri ro L mat = .inf := by
    rw [pipeConductionResistance, if_pos hro]
  have hIn_ne : jsOr (hInside fluid v (ri * 2) mu).h (.fin 0.0001) ≠ .nan :=
    jsOr_ne_nan (fun hcon => JsN.noConfusion hcon)
  simp only [pipeHeatTransfer, Option.getD_none]
  rw [hcond]
  rcases convectiveResistance_fin_or_inf _ ri L hIn_ne with ⟨x, hx⟩ | hx <;>
    rcases convectiveResistance_fin_or_inf (.fin 10) ro L
      (fun hcon => JsN.noConfusion hcon) with ⟨y, hy⟩ | hy <;>
    rw [hx, hy] <;> rfl

/-- With inverted radii the heat loss at any finite temperature is exactly
zero: a finite difference divided by an infinite resistance. -/
lemma pipeHeatTransfer_Qloss_zero_of_inverted (τ amb ri ro L v mu : ℝ)
    (mat : MaterialSpec) (fluid : FluidSpec) (hro : ro ≤ ri) :
    (pipeHeatTransfer (.fin τ) amb ri ro L v mat fluid mu none).QlossW =
      .fin 0 := by
  rw [pipeHeatTransfer_QlossW_eq,
    pipeHeatTransfer_Rtotal_inf_of_inverted (.fin τ) amb ri ro L v mu mat
      fluid hro, JsN.jsSub_fin_fin]
  rfl

/-- With an open-circuit wall (thickness zero) the required power reduces to
the ideal power m*cp*deltaT/dtSeconds. -/
lemma requiredPowerW_inverted (cfg : SimConfig)
    (hro : cfg.outerRadius ≤ cfg.innerRadius)
    (hdt : SimConfig.dtSeconds cfg ≠ 0) :
    SimConfig.requiredPowerW cfg =
      .fin (massFromLiters cfg.liters water * water.cp *
        SimConfig.deltaT cfg / SimConfig.dtSeconds cfg) := by
  have hq : (SimConfig.pipeTransfer cfg).QlossW = .fin 0 := by
    rw [SimConfig.pipeTransfer]
    exact pipeHeatTransfer_Qloss_zero_of_inverted _ _ _ _ _ _ _ _ _ hro
  rw [SimConfig.requiredPowerW, hq, jsOr_fin_zero, JsN.jsMax_fin_fin,
    max_self, jsAdd_fin_zero_right]
  simp only [SimConfig.powerIdeal, powerToHeatVolume]
  rw [JsN.jsDiv_fin_fin hdt]

lemma localLoss_zero_of_inverted (cfg : SimConfig)
    (hro : cfg.outerRadius ≤ cfg.innerRadius) (τ : ℝ) :
    SimConfig.localLoss cfg (.fin τ) = .fin 0 := by
  rw [SimConfig.localLoss]
  exact pipeHeatTransfer_Qloss_zero_of_inverted _ _ _ _ _ _ _ _ _ hro

/-- With an open-circuit wall, one Euler update adds exactly
deltaT/dtSeconds * dtStep to a finite temperature. -/
lemma simStep_inverted (cfg : SimConfig)
    (hro : cfg.outerRadius ≤ cfg.innerRadius)
    (hdt : SimConfig.dtSeconds cfg ≠ 0)
    (hC : SimConfig.thermalCapacity cfg ≠ 0) (dtStep τ : ℝ) :
    SimConfig.simStep cfg dtStep (.fin τ) =
      .fin (τ + SimConfig.deltaT cfg / SimConfig.dtSeconds cfg * dtStep) := by
  rw [SimConfig.simStep, requiredPowerW_inverted cfg hro hdt,
    localLoss_zero_of_inverted cfg hro, JsN.jsSub_fin_fin,
    JsN.jsDiv_fin_fin hC, JsN.jsMul_fin_fin, JsN.jsAdd_fin_fin]
  congr 1
  have hC' : massFromLiters cfg.liters water * water.cp ≠ 0 := by
    rwa [SimConfig.thermalCapacity] at hC
  rw [SimConfig.thermalCapacity, sub_zero, mul_div_assoc,
    mul_div_cancel_left₀ _ hC']

lemma cfgD_step (τ : ℝ) :
    SimConfig.simStep cfgD 1 (.fin τ) = .fin (τ - 200) := by
  rw [simStep_inverted cfgD
    (by norm_num [cfgD, SimConfig.outerRadius, SimConfig.innerRadius])
    (by norm_num [SimConfig.dtSeconds, cfgD])
    (by norm_num [SimConfig.thermalCapacity, cfgD, massFromLiters, water])]
  norm_num [SimConfig.deltaT, SimConfig.dtSeconds, cfgD]
  ring_nf

/-- The cfgD run over a 2 second duration with unit step: the initial
temperature 100 is at or above the target 0, but the first update drops the
temperature to -100, below the target, so the break is not taken and the
loop runs to the duration bound, recording three samples. -/
lemma cfgD_trace : SimConfig.runSimulation cfgD 1 2 =
    [(0, .fin (-100)), (1, .fin (-300)), (2, .fin (-500))] := by
  rw [SimConfig.runSimulation]
  rw [show ((⌊(2 : ℝ) / 1⌋).toNat + 1) = 2 + 1 from by simp]
  rw [show (JsN.fin cfgD.initialTemp) = .fin 100 from rfl]
  rw [simLoop_succ, if_pos (by norm_num : ((0 : ℕ) : ℝ) * 1 ≤ 2), cfgD_step,
    if_neg (show ¬ JsN.jle (.fin cfgD.targetTemp) (.fin (100 - 200 : ℝ)) from
      by norm_num [cfgD])]
  rw [simLoop_unfold cfgD 1 2 (show (2 : ℕ) = 1 + 1 from rfl),
    if_pos (by norm_num : ((0 + 1 : ℕ) : ℝ) * 1 ≤ 2), cfgD_step,
    if_neg (show ¬ JsN.jle (.fin cfgD.targetTemp)
        (.fin (100 - 200 - 200 : ℝ)) from by norm_num [cfgD])]
  rw [simLoop_unfold cfgD 1 2 (show (1 : ℕ) = 0 + 1 from rfl),
    if_pos (by norm_num : ((0 + 1 + 1 : ℕ) : ℝ) * 1 ≤ 2), cfgD_step,
    if_neg (show ¬ JsN.jle (.fin cfgD.targetTemp)
        (.fin (100 - 200 - 200 - 200 : ℝ)) from by norm_num [cfgD]),
    simLoop_zero]
  norm_num

/-- Claim C10 (counterexample): both clauses that the amendment changes fail
on the code at explicit inputs.  First, in cfgB (target equal to initial,
zero net power) the very first Euler increment is zero, the first and only
sample is (0, 20), and 20 is exactly the configured initial temperature —
so the initial temperature does appear in the trace, and the first sample
does not differ from it.  Second, in cfgD the initial temperature 100 is at
or above the target 0, yet the trace contains three samples, not exactly
one: the first update lands below the target (the break tests the
post-update value), refuting the one-sample clause as originally stated. -/
theorem runSimulation_trace_shape_cex :
    (((0 : ℝ), JsN.fin (20 : ℝ)) ∈ SimConfig.runSimulation cfgB 1 60 ∧
      cfgB.initialTemp = 20) ∧
    (cfgD.targetTemp ≤ cfgD.initialTemp ∧
      (SimConfig.runSimulation cfgD 1 2).length = 3) := by
  have hro : cfgB.outerRadius ≤ cfgB.innerRadius := by
    norm_num [cfgB, SimConfig.outerRadius, SimConfig.innerRadius]
  have hstep : SimConfig.simStep cfgB 1 (.fin 20) = .fin 20 := by
    rw [simStep_inverted cfgB hro (by norm_num [SimConfig.dtSeconds, cfgB])
      (by norm_num [SimConfig.thermalCapacity, cfgB, massFromLiters, water])]
    norm_num [SimConfig.deltaT, SimConfig.dtSeconds, cfgB]
  refine ⟨⟨?_, rfl⟩, by norm_num [cfgD], ?_⟩
  · rw [SimConfig.runSimulation]
    rw [show ((⌊(60 : ℝ) / 1⌋).toNat + 1) = 60 + 1 from by simp]
    rw [show (JsN.fin cfgB.initialTemp) = .fin 20 from rfl]
    rw [simLoop_succ, if_pos (by norm_num : ((0 : ℕ) : ℝ) * 1 ≤ 60), hstep,
      if_pos (show JsN.jle (.fin cfgB.targetTemp) (.fin (20 : ℝ)) from
        by norm_num [cfgB])]
    simp
  · rw [cfgD_trace]
    rfl

/-- Pointwise monotonicity transfer along the step chain: if every sampled
temperature is finite with a finite loss strictly below the (finite)
required power, adjacent samples are nondecreasing. -/
lemma chain_jle_of_steps (cfg : SimConfig) (dtStep P : ℝ)
    (hPin : SimConfig.requiredPowerW cfg = .fin P)
    (hC : 0 < SimConfig.thermalCapacity cfg) (hdt : 0 ≤ dtStep) :
    ∀ l : List (ℝ × JsN),
      List.Chain' (fun p q => q.2 = SimConfig.simStep cfg dtStep p.2) l →
      (∀ p ∈ l, ∃ τ q', p.2 = .fin τ ∧
          SimConfig.localLoss cfg (.fin τ) = .fin q' ∧ q' < P) →
      List.Chain' (fun p q => JsN.jle p.2 q.2) l := by
  intro l
  induction l with
  | nil =>
      intro _ _
      exact List.chain'_nil
  | cons a t iht =>
      cases t with
      | nil =>
          intro _ _
          exact List.chain'_singleton a
      | cons b t' =>
          intro hchain hgood
          obtain ⟨hab, hbt⟩ := List.chain'_cons.mp hchain
          obtain ⟨τ, q', ha2, hloss, hqP⟩ := hgood a (List.mem_cons_self a _)
          have hb2 : b.2 = .fin (τ + (P - q') /
              SimConfig.thermalCapacity cfg * dtStep) := by
            rw [hab, ha2, SimConfig.simStep, hPin, hloss, JsN.jsSub_fin_fin,
              JsN.jsDiv_fin_fin (ne_of_gt hC), JsN.jsMul_fin_fin,
              JsN.jsAdd_fin_fin]
          refine List.chain'_cons.mpr ⟨?_, ?_⟩
          · rw [ha2, hb2]
            exact (JsN.jle_fin_fin _ _).mpr (le_add_of_nonneg_right
              (mul_nonneg (div_nonneg (sub_pos.mpr hqP).le hC.le) hdt))
          · exact iht hbt (fun p hp => hgood p (List.mem_cons_of_mem a hp))

/-- Claim C7: for a run with nonnegative step, positive thermal capacity,
target above initial, and the (finite) required power strictly exceeding the
(finite) pipe loss at every sampled temperature, the recorded temperature
sequence is monotonically non-decreasing. -/
theorem runSimulation_monotone (cfg : SimConfig) (dtStep total P : ℝ)
    (hdt : 0 ≤ dtStep) (hC : 0 < SimConfig.thermalCapacity cfg)
    (htgt : cfg.initialTemp < cfg.targetTemp)
    (hPin : SimConfig.requiredPowerW cfg = .fin P)
    (hloss : ∀ p ∈ SimConfig.runSimulation cfg dtStep total, ∃ τ q,
        p.2 = .fin τ ∧ SimConfig.localLoss cfg (.fin τ) = .fin q ∧ q < P) :
    List.Chain' (fun p q => JsN.jle p.2 q.2)
      (SimConfig.runSimulation cfg dtStep total) :=
  chain_jle_of_steps cfg dtStep P hPin hC hdt _
    (simLoop_chain cfg dtStep total _ 0 _) hloss

lemma cfgA_ro : cfgA.outerRadius ≤ cfgA.innerRadius := by
  norm_num [cfgA, SimConfig.outerRadius, SimConfig.innerRadius]

lemma cfgA_step (τ : ℝ) :
    SimConfig.simStep cfgA 1 (.fin τ) = .fin (τ + 1/6) := by
  rw [simStep_inverted cfgA cfgA_ro
    (by norm_num [SimConfig.dtSeconds, cfgA])
    (by norm_num [SimConfig.thermalCapacity, cfgA, massFromLiters, water])]
  norm_num [SimConfig.deltaT, SimConfig.dtSeconds, cfgA]

/-- The cfgA run over a 1 second duration with unit step: two samples,
each one sixth of a degree above the last. -/
lemma cfgA_trace : SimConfig.runSimulation cfgA 1 1 =
    [(0, .fin (20 + 1/6)), (1, .fin (20 + 1/6 + 1/6))] := by
  rw [SimConfig.runSimulation]
  rw [show ((⌊(1 : ℝ) / 1⌋).toNat + 1) = 1 + 1 from by simp]
  rw [show (JsN.fin cfgA.initialTemp) = .fin 20 from rfl]
  rw [simLoop_succ, if_pos (by norm_num : ((0 : ℕ) : ℝ) * 1 ≤ 1), cfgA_step,
    if_neg (show ¬ JsN.jle (.fin cfgA.targetTemp) (.fin (20 + 1/6 : ℝ)) from
      by norm_num [cfgA])]
  rw [simLoop_unfold cfgA 1 1 (show (1 : ℕ) = 0 + 1 from rfl),
    if_pos (by norm_num : ((0 + 1 : ℕ) : ℝ) * 1 ≤ 1), cfgA_step,
    if_neg (show ¬ JsN.jle (.fin cfgA.targetTemp)
        (.fin (20 + 1/6 + 1/6 : ℝ)) from by norm_num [cfgA]),
    simLoop_zero]
  norm_num

/-- Claim C7 (witness): the cfgA run of two samples, with zero loss at every
sampled temperature and required power 0.993*4186*10/60 W. -/
theorem runSimulation_monotone_witness :
    (0 : ℝ) ≤ 1 ∧
    0 < SimConfig.thermalCapacity cfgA ∧
    cfgA.initialTemp < cfgA.targetTemp ∧
    SimConfig.requiredPowerW cfgA =
      .fin (massFromLiters cfgA.liters water * water.cp *
        SimConfig.deltaT cfgA / SimConfig.dtSeconds cfgA) ∧
    (∀ p ∈ SimConfig.runSimulation cfgA 1 1, ∃ τ q, p.2 = .fin τ ∧
        SimConfig.localLoss cfgA (.fin τ) = .fin q ∧
        q < massFromLiters cfgA.liters water * water.cp *
          SimConfig.deltaT cfgA / SimConfig.dtSeconds cfgA) ∧
    List.Chain' (fun p q => JsN.jle p.2 q.2)
      (SimConfig.runSimulation cfgA 1 1) := by
  have hCpos : 0 < SimConfig.thermalCapacity cfgA := by
    norm_num [SimConfig.thermalCapacity, cfgA, massFromLiters, water]
  have hPin := requiredPowerW_inverted cfgA cfgA_ro
    (by norm_num [SimConfig.dtSeconds, cfgA])
  have hP0 : 0 < massFromLiters cfgA.liters water * water.cp *
      SimConfig.deltaT cfgA / SimConfig.dtSeconds cfgA := by
    norm_num [massFromLiters, water, SimConfig.deltaT, SimConfig.dtSeconds,
      cfgA]
  have hloss : ∀ p ∈ SimConfig.runSimulation cfgA 1 1, ∃ τ q,
      p.2 = .fin τ ∧ SimConfig.localLoss cfgA (.fin τ) = .fin q ∧
      q < massFromLiters cfgA.liters water * water.cp *
        SimConfig.deltaT cfgA / SimConfig.dtSeconds cfgA := by
    intro p hp
    rw [cfgA_trace] at hp
    rcases List.mem_cons.mp hp with rfl | hp
    · exact ⟨20 + 1/6, 0, rfl, localLoss_zero_of_inverted cfgA cfgA_ro _, hP0⟩
    · rcases List.mem_cons.mp hp with rfl | hp
      · exact ⟨20 + 1/6 + 1/6, 0, rfl,
          localLoss_zero_of_inverted cfgA cfgA_ro _, hP0⟩
      · exact absurd hp (by simp)
  exact ⟨by norm_num, hCpos, by norm_num [cfgA], hPin, hloss,
    runSimulation_monotone cfgA 1 1 _ (by norm_num) hCpos
      (by norm_num [cfgA]) hPin hloss⟩

/-- Claim C8: the simulator is deterministic and carries no hidden state:
with identical inputs, two invocations produce identical traces regardless of
the component's previous simData state, and re-running on top of a previous
run reproduces that run's trace (idempotence). -/
theorem runSimulationApp_deterministic (cfg : SimConfig) (dtStep total : ℝ)
    (prev₁ prev₂ : List (ℝ × JsN)) :
    SimConfig.runSimulationApp cfg dtStep total prev₁ =
      SimConfig.runSimulationApp cfg dtStep total prev₂ ∧
    SimConfig.runSimulationApp cfg dtStep total
        (SimConfig.runSimulationApp cfg dtStep total prev₁) =
      SimConfig.runSimulationApp cfg dtStep total prev₁ :=
  ⟨rfl, rfl⟩

end
